import Mathlib

/-!
Verification of the span-resolution and result-mapping core of
`presidio-analyzer/presidio_analyzer/azure_ai_remote_recognizer.py`
(class `AzureAiRemoteRecognizer`).

Texts and entity literals are modelled as `List Char`, matching Python's
character-indexed strings.  Python's fallible/effectful behaviour is made
explicit:

* `str.find(word, start)` is `pyFind` (Python's `-1` becomes `none`);
* the `while` loop inside `find_first_word_positions` is `findPositionsLoop`,
  written with an explicit fuel parameter because for a zero-length word the
  Python loop does not terminate (`start += len(word)` adds 0); a `none`
  result means the loop did not finish within the given fuel;
* an uncaught `IndexError` (from `positions[0]` on an empty list) and a
  raised `SystemExit` are the `PyRes.indexError` and `PyRes.systemExit`
  outcomes of a computation.

The HTTP transport is an external collaborator: `analyze` receives the
outcome of the `requests.post` + `raise_for_status` + JSON-decoding step as
an explicit `RequestOutcome` argument, whose success case carries the decoded
`result` array of entity mentions, exactly the data
`map_recognizer_results_from_response` iterates over.
-/

/-- One step of Python's `text.find(word, start)`: scan positions
`i, i+1, ..., i+k-1` and return the first where `word` occurs. -/
def occursAtB (text word : List Char) (i : Nat) : Bool :=
  decide ((text.drop i).take word.length = word)

/-- Linear scan underlying `pyFind`, counting down the number of candidate
start positions still to try. -/
def pyFindFrom (text word : List Char) : Nat → Nat → Option Nat
  | _, 0 => none
  | i, k + 1 => if occursAtB text word i then some i else pyFindFrom text word (i + 1) k

/-- Python's `text.find(word, start)`: the least index `s ≥ start` with
`text[s : s + len(word)] == word` (and `s ≤ len(text)`), else `none`
(Python returns `-1`). -/
def pyFind (text word : List Char) (start : Nat) : Option Nat :=
  pyFindFrom text word start (text.length + 1 - start)

/-- Python's slice `l[a:b]` for non-negative bounds. -/
def pySlice (l : List Char) (a b : Nat) : List Char :=
  (l.take b).drop a

/-- Outcome of a Python computation: a returned value, an uncaught
`IndexError`, a raised `SystemExit` (which terminates the host interpreter
when nothing catches it), or failure to finish within the available fuel
(modelling non-termination). -/
inductive PyRes (α : Type) where
  | ok : α → PyRes α
  | indexError : PyRes α
  | systemExit : String → PyRes α
  | hang : PyRes α
deriving DecidableEq

/-- One decoded element of the remote response's `result` array, as consumed
by `map_recognizer_results_from_response` via `result.get(...)`. -/
structure EntityMention where
  entity_type : String
  entity : List Char
  score : Rat
  recognition_metadata : List (String × String)
deriving DecidableEq

/-- `presidio_analyzer.RecognizerResult(entity_type, start, end, score,
analysis_explanation, recognition_metadata)` as constructed by the mapper;
`analysis_explanation` is always passed as `None` there. -/
structure RecognizerResult where
  entity_type : String
  start : Nat
  «end» : Nat
  score : Rat
  analysis_explanation : Option Unit
  recognition_metadata : List (String × String)
deriving DecidableEq

/-- The `while start < len(text)` loop of `find_first_word_positions`,
accumulating `(start, end)` pairs.  Each iteration re-runs
`start = text.find(word, start)`, appends `(start, start + len(word))` on a
hit, advances `start` by `len(word)`, and breaks on a miss.  `none` means the
fuel ran out before the loop finished. -/
def findPositionsLoop : Nat → List Char → List Char → Nat → Option (List (Nat × Nat))
  | 0, _, _, _ => none
  | fuel + 1, text, word, start =>
    if start < text.length then
      match pyFind text word start with
      | none => some []
      | some s =>
        (findPositionsLoop fuel text word (s + word.length)).map
          (fun ps => (s, s + word.length) :: ps)
    else some []

/-- `AzureAiRemoteRecognizer.find_first_word_positions(text, word)`: runs the
scanning loop from `start = 0` and returns `positions[0]`; an empty
`positions` list makes `positions[0]` raise `IndexError`.  (The method never
touches `self`, so it is modelled as a plain function.) -/
def find_first_word_positions (fuel : Nat) (text word : List Char) : PyRes (Nat × Nat) :=
  match findPositionsLoop fuel text word 0 with
  | none => PyRes.hang
  | some [] => PyRes.indexError
  | some (p :: _) => PyRes.ok p

/-- The `for result in results.get("result")` loop of
`map_recognizer_results_from_response`.  `currentText` is the local
`current_text` variable: it is re-sliced to `current_text[position[1]:]` on
every iteration but is never consulted by the search, which always runs on
the full original `text`. -/
def mapResultsLoop (fuel : Nat) (text : List Char) :
    List EntityMention → List Char → PyRes (List RecognizerResult)
  | [], _currentText => PyRes.ok []
  | m :: ms, currentText =>
    match find_first_word_positions fuel text m.entity with
    | PyRes.ok (s, e) =>
      match mapResultsLoop fuel text ms (currentText.drop e) with
      | PyRes.ok rest =>
        PyRes.ok ({ entity_type := m.entity_type, start := s, «end» := e,
                    score := m.score, analysis_explanation := none,
                    recognition_metadata := m.recognition_metadata } :: rest)
      | other => other
    | PyRes.indexError => PyRes.indexError
    | PyRes.systemExit msg => PyRes.systemExit msg
    | PyRes.hang => PyRes.hang

/-- State of an `AzureAiRemoteRecognizer` instance: the two constructor
arguments plus the fields set through `super().__init__`. -/
structure AzureAiRemoteRecognizer where
  pii_identification_url : String
  api_key : String
  supported_entities : List String
  name : Option String
  supported_language : String
  version : String
deriving DecidableEq

/-- `AzureAiRemoteRecognizer.__init__(pii_identification_url, api_key)`:
stores the URLs and keys and calls `super().__init__(supported_entities=[],
name=None, supported_language="it", version="1.0")`, which stores those
fields on the instance. -/
def mkAzureAiRemoteRecognizer (pii_identification_url api_key : String) :
    AzureAiRemoteRecognizer :=
  { pii_identification_url := pii_identification_url
    api_key := api_key
    supported_entities := []
    name := none
    supported_language := "it"
    version := "1.0" }

/-- `AzureAiRemoteRecognizer.load()`: overwrites `self.supported_entities`
with the fixed eleven-entry list. -/
def AzureAiRemoteRecognizer.load (self : AzureAiRemoteRecognizer) : AzureAiRemoteRecognizer :=
  { self with
    supported_entities :=
      ["PERSON", "LOCATION", "EMAIL_ADDRESS", "IBAN_CODE", "POLICY_NUMBER",
       "CREDIT_CARD", "PHONE_NUMBER", "IT_FISCAL_CODE", "IT_IDENTITY_CARD",
       "IT_PASSPORT", "IT_DRIVER_LICENSE"] }

/-- `AzureAiRemoteRecognizer.get_supported_entities()`. -/
def AzureAiRemoteRecognizer.get_supported_entities (self : AzureAiRemoteRecognizer) :
    List String :=
  self.supported_entities

/-- `AzureAiRemoteRecognizer.map_recognizer_results_from_response(response,
text)`, with the JSON envelope extraction
(`response.json().get("choices")[0].get("message").get("content")` +
`json.loads`) abstracted to its decoded `result` array of mentions.  The
method reads no instance state. -/
def AzureAiRemoteRecognizer.map_recognizer_results_from_response
    (_self : AzureAiRemoteRecognizer) (fuel : Nat) (text : List Char)
    (mentions : List EntityMention) : PyRes (List RecognizerResult) :=
  mapResultsLoop fuel text mentions text

/-- Behaviour of the external HTTP transport for one `analyze` call:
either `requests.post` + `response.raise_for_status()` + JSON decoding
succeed and yield the decoded `result` array, or a
`requests.RequestException` is raised with the given message. -/
inductive RequestOutcome where
  | success : List EntityMention → RequestOutcome
  | requestException : String → RequestOutcome
deriving DecidableEq

/-- `AzureAiRemoteRecognizer.analyze(text, entities, nlp_artifacts)`: sends
the request (the transport's behaviour is the explicit `outcome` argument;
`nlp_artifacts` is unused by the source) and either maps the response or,
on `requests.RequestException`, executes
`raise SystemExit(f"Failed to make the request. Error: {e}")`. -/
def AzureAiRemoteRecognizer.analyze (self : AzureAiRemoteRecognizer) (fuel : Nat)
    (text : List Char) (_entities : List String) (outcome : RequestOutcome) :
    PyRes (List RecognizerResult) :=
  match outcome with
  | RequestOutcome.success mentions =>
    self.map_recognizer_results_from_response fuel text mentions
  | RequestOutcome.requestException msg =>
    PyRes.systemExit ("Failed to make the request. Error: " ++ msg)

/-- Whether `word` occurs anywhere in `text`, phrased through the same
search primitive the code uses (`text.find(word, 0) != -1`). -/
def occursIn (text word : List Char) : Bool :=
  (pyFind text word 0).isSome

/-- Whether the `start` offsets of a list of results are non-decreasing in
list order. -/
def nondecreasingStarts : List RecognizerResult → Bool
  | [] => true
  | [_] => true
  | r1 :: r2 :: rs => decide (r1.start ≤ r2.start) && nondecreasingStarts (r2 :: rs)

/-- The `(start, end)` spans of a successful mapper outcome, `none` on any
failure outcome. -/
def spanList : PyRes (List RecognizerResult) → Option (List (Nat × Nat))
  | PyRes.ok rs => some (rs.map (fun r => (r.start, r.«end»)))
  | _ => none

/-- A fixed recognizer instance used for concrete evaluations. -/
def rec0 : AzureAiRemoteRecognizer :=
  mkAzureAiRemoteRecognizer "https://example.invalid/pii" "api-key"

/-! ### Properties of the search primitive -/

/-- Soundness of the linear scan: a hit satisfies the occurrence predicate
and lies in the scanned window. -/
theorem pyFindFrom_sound (text word : List Char) :
    ∀ (k i s : Nat), pyFindFrom text word i k = some s →
      occursAtB text word s = true ∧ i ≤ s ∧ s < i + k := by
  intro k
  induction k with
  | zero => intro i s h; simp [pyFindFrom] at h
  | succ k ih =>
    intro i s h
    rw [pyFindFrom] at h
    by_cases hocc : occursAtB text word i
    · rw [if_pos hocc] at h
      obtain rfl : i = s := by simpa using h
      exact ⟨hocc, Nat.le_refl _, by omega⟩
    · rw [if_neg hocc] at h
      obtain ⟨h1, h2, h3⟩ := ih (i + 1) s h
      exact ⟨h1, by omega, by omega⟩

/-- Soundness of `text.find(word, start)`: a non-negative result is an
occurrence at or after `start`, and within the text. -/
theorem pyFind_sound (text word : List Char) (start s : Nat)
    (h : pyFind text word start = some s) :
    occursAtB text word s = true ∧ start ≤ s ∧ s ≤ text.length := by
  unfold pyFind at h
  by_cases hle : start ≤ text.length
  · obtain ⟨h1, h2, h3⟩ := pyFindFrom_sound text word _ start s h
    exact ⟨h1, h2, by omega⟩
  · have hz : text.length + 1 - start = 0 := by omega
    rw [hz] at h
    simp [pyFindFrom] at h

/-- `text.find("", start)` returns `start` itself whenever
`start ≤ len(text)`: the empty word occurs everywhere. -/
theorem pyFind_nil_word (text : List Char) (start : Nat) (h : start ≤ text.length) :
    pyFind text [] start = some start := by
  unfold pyFind
  have hk : text.length + 1 - start = (text.length - start) + 1 := by omega
  rw [hk, pyFindFrom]
  simp [occursAtB]

/-- With an empty word and a nonempty remaining window, the scanning loop
never finishes: `start` is reassigned to itself by the find and then
advanced by `len(word) = 0`, so no fuel is ever enough. -/
theorem findPositionsLoop_nil_word_none (text : List Char) :
    ∀ (fuel start : Nat), start < text.length →
      findPositionsLoop fuel text [] start = none := by
  intro fuel
  induction fuel with
  | zero => intro start _; rfl
  | succ fuel ih =>
    intro start h
    have hfind : pyFind text [] start = some start := pyFind_nil_word text start (Nat.le_of_lt h)
    rw [findPositionsLoop, if_pos h, hfind]
    simp [ih start h]

/-- For a nonempty word the loop terminates: each iteration advances the
scan position by at least one, so `len(text) - start` bounds the remaining
iterations. -/
theorem findPositionsLoop_total (text word : List Char) (hw : word ≠ []) :
    ∀ (fuel start : Nat), text.length - start < fuel →
      ∃ ps, findPositionsLoop fuel text word start = some ps := by
  intro fuel
  induction fuel with
  | zero => intro start h; omega
  | succ fuel ih =>
    intro start h
    by_cases hs : start < text.length
    · cases hfind : pyFind text word start with
      | none => exact ⟨[], by rw [findPositionsLoop, if_pos hs, hfind]⟩
      | some s =>
        obtain ⟨_, hstart_le, _⟩ := pyFind_sound text word start s hfind
        have hwlen : 0 < word.length := List.length_pos.mpr hw
        obtain ⟨ps, hps⟩ := ih (s + word.length) (by omega)
        refine ⟨(s, s + word.length) :: ps, ?_⟩
        rw [findPositionsLoop, if_pos hs]
        simp [hfind, hps]
    · exact ⟨[], by rw [findPositionsLoop, if_neg hs]⟩

/-- Characterization of a successful `find_first_word_positions`: the
returned pair is the first hit of `text.find(word, 0)` together with
`start + len(word)`. -/
theorem find_first_ok (fuel : Nat) (text word : List Char) (s e : Nat)
    (h : find_first_word_positions fuel text word = PyRes.ok (s, e)) :
    pyFind text word 0 = some s ∧ e = s + word.length := by
  unfold find_first_word_positions at h
  cases hloop : findPositionsLoop fuel text word 0 with
  | none => rw [hloop] at h; simp at h
  | some ps =>
    rw [hloop] at h
    cases ps with
    | nil => simp at h
    | cons p rest =>
      simp only [PyRes.ok.injEq] at h
      subst h
      cases fuel with
      | zero => simp [findPositionsLoop] at hloop
      | succ fuel =>
        rw [findPositionsLoop] at hloop
        by_cases h0 : 0 < text.length
        · rw [if_pos h0] at hloop
          cases hfind : pyFind text word 0 with
          | none => simp [hfind] at hloop
          | some s0 =>
            simp only [hfind] at hloop
            cases hrec : findPositionsLoop fuel text word (s0 + word.length) with
            | none => rw [hrec] at hloop; simp at hloop
            | some ps' =>
              rw [hrec] at hloop
              simp only [Option.map_some', Option.some.injEq, List.cons.injEq] at hloop
              obtain ⟨hp, -⟩ := hloop
              cases hp
              exact ⟨rfl, rfl⟩
        · rw [if_neg h0] at hloop
          simp at hloop

/-- A nonempty word occurring somewhere in the text makes
`find_first_word_positions` succeed, returning the first occurrence in the
whole text, provided the fuel exceeds the text length (enough for the loop
to run to completion). -/
theorem find_first_total (fuel : Nat) (text word : List Char)
    (hw : word ≠ []) (hocc : occursIn text word = true)
    (hfuel : text.length < fuel) :
    ∃ s, find_first_word_positions fuel text word = PyRes.ok (s, s + word.length) ∧
      pyFind text word 0 = some s := by
  obtain ⟨s, hs⟩ := Option.isSome_iff_exists.mp hocc
  obtain ⟨hoccAt, -, -⟩ := pyFind_sound text word 0 s hs
  have hwlen : 0 < word.length := List.length_pos.mpr hw
  have htext : 0 < text.length := by
    by_contra hlen
    have htnil : text = [] := by
      cases text with
      | nil => rfl
      | cons c cs => simp at hlen
    subst htnil
    rw [occursAtB] at hoccAt
    simp at hoccAt
    exact hw hoccAt
  cases fuel with
  | zero => omega
  | succ fuel =>
    obtain ⟨ps, hps⟩ := findPositionsLoop_total text word hw fuel (s + word.length) (by omega)
    refine ⟨s, ?_, hs⟩
    unfold find_first_word_positions
    rw [findPositionsLoop, if_pos htext]
    simp [hs, hps]

/-! ### Properties of the result-mapping loop -/

/-- Invariant of a successful pass of the mapping loop: the emitted results
pair up one-to-one and in order with the input mentions, each carrying the
mention's type, score and metadata, a `None` explanation, and the span
returned by `find_first_word_positions` for that mention's text.  The
`current_text` argument is irrelevant to the output. -/
theorem mapResultsLoop_ok (fuel : Nat) (text : List Char) :
    ∀ (ms : List EntityMention) (cur : List Char) (rs : List RecognizerResult),
      mapResultsLoop fuel text ms cur = PyRes.ok rs →
      List.Forall₂ (fun (r : RecognizerResult) (m : EntityMention) =>
        find_first_word_positions fuel text m.entity = PyRes.ok (r.start, r.«end») ∧
        r.entity_type = m.entity_type ∧ r.score = m.score ∧
        r.recognition_metadata = m.recognition_metadata ∧
        r.analysis_explanation = none) rs ms := by
  intro ms
  induction ms with
  | nil =>
    intro cur rs h
    rw [mapResultsLoop] at h
    obtain rfl : rs = [] := by simpa using h.symm
    exact List.Forall₂.nil
  | cons m ms ih =>
    intro cur rs h
    rw [mapResultsLoop] at h
    cases hf : find_first_word_positions fuel text m.entity with
    | ok p =>
      obtain ⟨s, e⟩ := p
      cases hrec : mapResultsLoop fuel text ms (cur.drop e) with
      | ok rest =>
        simp only [hf, hrec] at h
        obtain rfl : _ :: rest = rs := by simpa using h
        exact List.Forall₂.cons ⟨hf, rfl, rfl, rfl, rfl⟩ (ih _ _ hrec)
      | indexError => simp [hf, hrec] at h
      | systemExit msg => simp [hf, hrec] at h
      | hang => simp [hf, hrec] at h
    | indexError => simp [hf] at h
    | systemExit msg => simp [hf] at h
    | hang => simp [hf] at h

/-- If every mention's text is nonempty and occurs in the text, the mapping
loop succeeds (with fuel exceeding the text length), whatever the value of
the dead `current_text` variable. -/
theorem mapResultsLoop_total (fuel : Nat) (text : List Char)
    (hfuel : text.length < fuel) :
    ∀ (ms : List EntityMention),
      (∀ m ∈ ms, m.entity ≠ [] ∧ occursIn text m.entity = true) →
      ∀ cur, ∃ rs, mapResultsLoop fuel text ms cur = PyRes.ok rs := by
  intro ms
  induction ms with
  | nil => intro _ cur; exact ⟨[], rfl⟩
  | cons m ms ih =>
    intro hres cur
    obtain ⟨hne, hocc⟩ := hres m (List.mem_cons_self m ms)
    obtain ⟨s, hfst, -⟩ := find_first_total fuel text m.entity hne hocc hfuel
    obtain ⟨rs, hrs⟩ :=
      ih (fun m' hm' => hres m' (List.mem_cons_of_mem _ hm')) (cur.drop (s + m.entity.length))
    refine ⟨{ entity_type := m.entity_type, start := s, «end» := s + m.entity.length,
              score := m.score, analysis_explanation := none,
              recognition_metadata := m.recognition_metadata } :: rs, ?_⟩
    rw [mapResultsLoop]
    simp only [hfst, hrs]

/-- If every mention before some point resolves but one mention's text does
not occur in the text at all, the whole mapping loop ends in an uncaught
`IndexError`: nothing is returned, not even the already-resolved prefix. -/
theorem mapResultsLoop_aborts (fuel : Nat) (text : List Char)
    (hfuel : text.length < fuel) :
    ∀ (pre : List EntityMention) (m : EntityMention) (post : List EntityMention),
      (∀ m' ∈ pre, m'.entity ≠ [] ∧ occursIn text m'.entity = true) →
      occursIn text m.entity = false →
      ∀ cur, mapResultsLoop fuel text (pre ++ m :: post) cur = PyRes.indexError := by
  intro pre
  induction pre with
  | nil =>
    intro m post _ hm cur
    have hfind : pyFind text m.entity 0 = none := by
      cases hf : pyFind text m.entity 0 with
      | none => rfl
      | some s => rw [occursIn, hf] at hm; simp at hm
    have hfst : find_first_word_positions fuel text m.entity = PyRes.indexError := by
      unfold find_first_word_positions
      cases fuel with
      | zero => omega
      | succ fuel =>
        rw [findPositionsLoop]
        by_cases h0 : 0 < text.length
        · rw [if_pos h0, hfind]
        · rw [if_neg h0]
    rw [List.nil_append, mapResultsLoop]
    simp only [hfst]
  | cons p pre ih =>
    intro m post hpre hm cur
    obtain ⟨hne, hocc⟩ := hpre p (List.mem_cons_self p pre)
    obtain ⟨s, hfst, -⟩ := find_first_total fuel text p.entity hne hocc hfuel
    rw [List.cons_append, mapResultsLoop]
    simp only [hfst,
      ih m post (fun m' hm' => hpre m' (List.mem_cons_of_mem _ hm')) hm
        (cur.drop (s + p.entity.length))]

/-- A successful `find_first_word_positions` returns a span whose slice of
the text reproduces the word exactly. -/
theorem find_first_slice (fuel : Nat) (text word : List Char) (s e : Nat)
    (h : find_first_word_positions fuel text word = PyRes.ok (s, e)) :
    pySlice text s e = word := by
  obtain ⟨hfind, he⟩ := find_first_ok fuel text word s e h
  obtain ⟨hocc, -, -⟩ := pyFind_sound text word 0 s hfind
  rw [occursAtB, decide_eq_true_eq] at hocc
  rw [pySlice, he, List.drop_take]
  rw [Nat.add_sub_cancel_left] at *
  simpa using hocc

/-! ### Claims -/

/-- C1: the spec says that for text `"A.B.A"` with two mentions whose text is
`"A"`, the first resolves to span `(0,1)` and the second to `(4,5)` (first
occurrence at or after the scan cursor).  Evaluating the code at this input:
`find_first_word_positions` is always called on the full original text and
returns `positions[0]`, the first occurrence in the whole text, and the
`current_text` cursor variable is never consulted, so both mentions resolve
to `(0,1)`, not `(4,5)`. -/
theorem c1_duplicate_mentions_resolve_to_first_occurrence :
    rec0.map_recognizer_results_from_response 6 "A.B.A".toList
      [⟨"PERSON", "A".toList, 9/10, []⟩, ⟨"PERSON", "A".toList, 8/10, []⟩] =
      PyRes.ok [⟨"PERSON", 0, 1, 9/10, none, []⟩, ⟨"PERSON", 0, 1, 8/10, none, []⟩] ∧
    ((0, 1) : Nat × Nat) ≠ (4, 5) :=
  ⟨rfl, by decide⟩

/-- C2: every `RecognizerResult` emitted by the Result Mapper satisfies
`text[span.start:span.end] == mention.entity` exactly, character for
character: whenever the mapping returns normally, the emitted results pair
up one-to-one with the mentions and each span slices the text back to the
mention's literal text. -/
theorem c2_emitted_spans_slice_to_entity_text
    (self : AzureAiRemoteRecognizer) (fuel : Nat) (text : List Char)
    (mentions : List EntityMention) (rs : List RecognizerResult)
    (h : self.map_recognizer_results_from_response fuel text mentions = PyRes.ok rs) :
    List.Forall₂ (fun (r : RecognizerResult) (m : EntityMention) =>
      pySlice text r.start r.«end» = m.entity) rs mentions := by
  have hm := mapResultsLoop_ok fuel text mentions text rs h
  exact hm.imp (fun r m hrm => find_first_slice fuel text m.entity r.start r.«end» hrm.1)

/-- Witness for C2 at a concrete input: the single mention `"A"` in text
`"A.B"` is emitted with span `(0,1)`, which slices back to `"A"`. -/
theorem c2_witness :
    rec0.map_recognizer_results_from_response 4 "A.B".toList
      [⟨"PERSON", "A".toList, 9/10, []⟩] =
      PyRes.ok [⟨"PERSON", 0, 1, 9/10, none, []⟩] ∧
    List.Forall₂ (fun (r : RecognizerResult) (m : EntityMention) =>
      pySlice "A.B".toList r.start r.«end» = m.entity)
      [⟨"PERSON", 0, 1, 9/10, none, []⟩] [⟨"PERSON", "A".toList, 9/10, []⟩] :=
  ⟨rfl, c2_emitted_spans_slice_to_entity_text rec0 4 "A.B".toList
    [⟨"PERSON", "A".toList, 9/10, []⟩] [⟨"PERSON", 0, 1, 9/10, none, []⟩] rfl⟩

/-- C3 counterexample: with text `"A.B"` and mentions `"A"` then `"Z"` (the
latter not present), the claim predicts the output `[result for "A"]` with
the failing mention silently dropped; the code instead ends in an uncaught
`IndexError` (`positions[0]` on an empty list) and emits nothing at all. -/
theorem c3_counterexample_unfound_mention_aborts :
    rec0.map_recognizer_results_from_response 4 "A.B".toList
      [⟨"PERSON", "A".toList, 9/10, []⟩, ⟨"LOCATION", "Z".toList, 1/2, []⟩] =
      PyRes.indexError ∧
    rec0.map_recognizer_results_from_response 4 "A.B".toList
      [⟨"PERSON", "A".toList, 9/10, []⟩, ⟨"LOCATION", "Z".toList, 1/2, []⟩] ≠
      PyRes.ok [⟨"PERSON", 0, 1, 9/10, none, []⟩] :=
  ⟨rfl, by decide⟩

/-- C3 amended: if any mention's literal text does not occur in the text,
the whole batch aborts with an uncaught `IndexError` — no results are
emitted for any mention, resolvable or not. -/
theorem c3_unfound_mention_aborts_batch
    (self : AzureAiRemoteRecognizer) (fuel : Nat) (text : List Char)
    (pre : List EntityMention) (m : EntityMention) (post : List EntityMention)
    (hpre : ∀ m' ∈ pre, m'.entity ≠ [] ∧ occursIn text m'.entity = true)
    (hm : occursIn text m.entity = false)
    (hfuel : text.length < fuel) :
    self.map_recognizer_results_from_response fuel text (pre ++ m :: post) =
      PyRes.indexError :=
  mapResultsLoop_aborts fuel text hfuel pre m post hpre hm text

/-- Witness for the amended C3 at a concrete input. -/
theorem c3_witness :
    (∀ m' ∈ ([⟨"PERSON", "A".toList, 9/10, []⟩] : List EntityMention),
        m'.entity ≠ [] ∧ occursIn "A.B".toList m'.entity = true) ∧
    occursIn "A.B".toList "Z".toList = false ∧
    "A.B".toList.length < 4 ∧
    rec0.map_recognizer_results_from_response 4 "A.B".toList
      ([⟨"PERSON", "A".toList, 9/10, []⟩] ++
        (⟨"LOCATION", "Z".toList, 1/2, []⟩ : EntityMention) :: []) =
      PyRes.indexError :=
  ⟨by decide, by decide, by decide,
    c3_unfound_mention_aborts_batch rec0 4 "A.B".toList
      [⟨"PERSON", "A".toList, 9/10, []⟩] ⟨"LOCATION", "Z".toList, 1/2, []⟩ []
      (by decide) (by decide) (by decide)⟩

/-- C4 counterexample: when the remote call fails with a
`requests.RequestException`, `analyze` does not surface a recoverable
`RemoteServiceError` (no such type exists in the code); it executes
`raise SystemExit(...)`, which terminates the host interpreter when nothing
catches it. -/
theorem c4_counterexample_request_failure :
    rec0.analyze 1 [] [] (RequestOutcome.requestException "connection error") =
      PyRes.systemExit "Failed to make the request. Error: connection error" :=
  rfl

/-- C4 amended: for every recognizer state, text, entity list and failure
message, a failed remote call makes `analyze` raise
`SystemExit(f"Failed to make the request. Error: {e}")` — fatal and
unretried, and process-terminating when uncaught, rather than a surfaced
`RemoteServiceError`. -/
theorem c4_request_failure_raises_sysexit
    (self : AzureAiRemoteRecognizer) (fuel : Nat) (text : List Char)
    (entities : List String) (msg : String) :
    self.analyze fuel text entities (RequestOutcome.requestException msg) =
      PyRes.systemExit ("Failed to make the request. Error: " ++ msg) :=
  rfl

/-- C5: the claim says a zero-length needle fails fast; in the code, for a
nonempty text the scanning loop never terminates on an empty word
(`text.find("", start)` returns `start` and `start += len(word)` adds 0), so
no amount of fuel makes `find_first_word_positions` return: the call hangs
instead of failing fast. -/
theorem c5_empty_needle_never_terminates (fuel : Nat) :
    find_first_word_positions fuel "a".toList [] = PyRes.hang := by
  unfold find_first_word_positions
  rw [findPositionsLoop_nil_word_none "a".toList fuel 0 (by decide)]

/-- C6: the spec claims start offsets are non-decreasing when mentions are
listed in left-to-right textual order.  Counterexample from the code: in
`"B.A.B"` the mentions `"A"`, `"B"` are in left-to-right order (occurrences
at 2 and 4, disjoint and increasing), yet the code resolves each to the
first occurrence in the whole text, emitting starts `2` then `0` —
strictly decreasing. -/
theorem c6_starts_not_monotone_concrete :
    occursAtB "B.A.B".toList "A".toList 2 = true ∧
    occursAtB "B.A.B".toList "B".toList 4 = true ∧
    2 + "A".toList.length ≤ 4 ∧
    rec0.map_recognizer_results_from_response 6 "B.A.B".toList
      [⟨"PERSON", "A".toList, 9/10, []⟩, ⟨"LOCATION", "B".toList, 8/10, []⟩] =
      PyRes.ok [⟨"PERSON", 2, 3, 9/10, none, []⟩, ⟨"LOCATION", 0, 1, 8/10, none, []⟩] ∧
    nondecreasingStarts
      [⟨"PERSON", 2, 3, 9/10, none, []⟩, ⟨"LOCATION", 0, 1, 8/10, none, []⟩] = false :=
  ⟨by decide, by decide, by decide, rfl, by decide⟩

/-- C7 counterexample: for the spec's scenario text and mentions, the second
emitted span is `(22,32)` (the text is 32 characters long and
`"john@x.com"` has 10), not `(22,33)` as the claim states. -/
theorem c7_counterexample_second_span :
    spanList (rec0.map_recognizer_results_from_response 33
      "Contact John Smith at john@x.com".toList
      [⟨"PERSON", "John Smith".toList, 9/10, []⟩,
       ⟨"EMAIL_ADDRESS", "john@x.com".toList, 19/20, []⟩]) =
      some [(8, 18), (22, 32)] ∧
    (some [(8, 18), (22, 32)] : Option (List (Nat × Nat))) ≠ some [(8, 18), (22, 33)] :=
  ⟨rfl, by decide⟩

/-- C7 amended: the scenario yields exactly two results, in mention order,
with spans `(8,18)` and `(22,32)` matching the substring positions in the
literal string. -/
theorem c7_scenario_spans :
    rec0.map_recognizer_results_from_response 33
      "Contact John Smith at john@x.com".toList
      [⟨"PERSON", "John Smith".toList, 9/10, []⟩,
       ⟨"EMAIL_ADDRESS", "john@x.com".toList, 19/20, []⟩] =
      PyRes.ok [⟨"PERSON", 8, 18, 9/10, none, []⟩,
                ⟨"EMAIL_ADDRESS", 22, 32, 19/20, none, []⟩] :=
  rfl

/-- C8: whenever every mention resolves (nonempty literal text occurring in
the text, with fuel large enough for the loops to finish), the mapper
returns one result per mention in exactly the input order, each carrying
that mention's `entity_type`, `score` and `recognition_metadata` unchanged
and `analysis_explanation = None`. -/
theorem c8_output_order_and_fields
    (self : AzureAiRemoteRecognizer) (fuel : Nat) (text : List Char)
    (mentions : List EntityMention)
    (hres : ∀ m ∈ mentions, m.entity ≠ [] ∧ occursIn text m.entity = true)
    (hfuel : text.length < fuel) :
    ∃ rs, self.map_recognizer_results_from_response fuel text mentions = PyRes.ok rs ∧
      List.Forall₂ (fun (r : RecognizerResult) (m : EntityMention) =>
        r.entity_type = m.entity_type ∧ r.score = m.score ∧
        r.recognition_metadata = m.recognition_metadata ∧
        r.analysis_explanation = none) rs mentions := by
  obtain ⟨rs, hrs⟩ := mapResultsLoop_total fuel text hfuel mentions hres text
  refine ⟨rs, hrs, ?_⟩
  exact (mapResultsLoop_ok fuel text mentions text rs hrs).imp
    (fun r m hrm => ⟨hrm.2.1, hrm.2.2.1, hrm.2.2.2.1, hrm.2.2.2.2⟩)

/-- Witness for C8 at a concrete input. -/
theorem c8_witness :
    (∀ m ∈ ([⟨"PERSON", "A".toList, 9/10, []⟩] : List EntityMention),
        m.entity ≠ [] ∧ occursIn "A.B".toList m.entity = true) ∧
    "A.B".toList.length < 4 ∧
    (∃ rs, rec0.map_recognizer_results_from_response 4 "A.B".toList
        [⟨"PERSON", "A".toList, 9/10, []⟩] = PyRes.ok rs ∧
      List.Forall₂ (fun (r : RecognizerResult) (m : EntityMention) =>
        r.entity_type = m.entity_type ∧ r.score = m.score ∧
        r.recognition_metadata = m.recognition_metadata ∧
        r.analysis_explanation = none) rs [⟨"PERSON", "A".toList, 9/10, []⟩]) :=
  ⟨by decide, by decide,
    c8_output_order_and_fields rec0 4 "A.B".toList
      [⟨"PERSON", "A".toList, 9/10, []⟩] (by decide) (by decide)⟩

/-- C9: the mapping is deterministic and carries no hidden state across
invocations: its output is the same for any two recognizer states (the
method reads and writes no instance attribute), so calling it twice with
the same `(text, mentions)` pair yields identical output. -/
theorem c9_map_deterministic_stateless
    (self self' : AzureAiRemoteRecognizer) (fuel : Nat) (text : List Char)
    (mentions : List EntityMention) :
    self.map_recognizer_results_from_response fuel text mentions =
      self'.map_recognizer_results_from_response fuel text mentions :=
  rfl

/-- C10: a freshly constructed recognizer supports no entities before
`load()`; after `load()` it supports exactly the fixed eleven-entry list,
and further `load()` calls leave the state unchanged. -/
theorem c10_supported_entities_lifecycle (url key : String) :
    (mkAzureAiRemoteRecognizer url key).get_supported_entities = [] ∧
    ((mkAzureAiRemoteRecognizer url key).load).get_supported_entities =
      ["PERSON", "LOCATION", "EMAIL_ADDRESS", "IBAN_CODE", "POLICY_NUMBER",
       "CREDIT_CARD", "PHONE_NUMBER", "IT_FISCAL_CODE", "IT_IDENTITY_CARD",
       "IT_PASSPORT", "IT_DRIVER_LICENSE"] ∧
    ((mkAzureAiRemoteRecognizer url key).load).load =
      (mkAzureAiRemoteRecognizer url key).load :=
  ⟨rfl, rfl, rfl⟩
